import Mathlib

/-!
Verification of the perf-event sampling engine declared in src/src/perfEvents.h
(class PerfEvents).  The header gives the class interface, the inline bodies of
name, ThreadStart and ThreadEnd, and the static field layout; the bodies of the
remaining member functions are not part of the repository slice, so those
operations are modelled from the specification (sections 3 to 7 of spec.md),
as marked on each definition.
-/

namespace PerfSpec

/-- EventType category, modelled from spec section 3: hardware counter,
software counter or tracepoint. -/
inductive EventCategory
  | hardware
  | software
  | tracepoint
deriving DecidableEq, Repr

/-- Modelled from the spec: immutable event descriptor produced by the
EventTypeRegistry (spec section 3), standing in for the PerfEventType class
whose definition is not in src/. -/
structure EventType where
  category : EventCategory
  typeCode : Nat
  configCode : Nat
  eventName : String
deriving DecidableEq, Repr

/-- Modelled from the spec: the supported event table of the EventTypeRegistry
(spec section 4.1: a CPU-cycles counter, an instructions-retired counter, a
context-switch software counter, page-fault counters). -/
def supportedEvents : List EventType :=
  [ ⟨EventCategory.hardware, 0, 0, "cpu-cycles"⟩,
    ⟨EventCategory.hardware, 0, 1, "instructions"⟩,
    ⟨EventCategory.software, 1, 3, "context-switches"⟩,
    ⟨EventCategory.software, 1, 2, "page-faults"⟩ ]

/-- Modelled from the spec: EventTypeRegistry.resolve (spec section 4.1).
Recognized event names map to fixed category, type and config triples; unknown
names fail (none stands for the UnsupportedEvent error). -/
def resolve (s : String) : Option EventType :=
  supportedEvents.find? (fun e => e.eventName == s)

/-- Global engine state (spec section 3): the static fields of PerfEvents
(src/src/perfEvents.h lines 31 to 36) abstracted as a record.  The slot table
of PerfEvent sources is modelled by the list of thread ids that currently own
a live SampleSource.  The field printExtendedWarning models the static field
_print_extended_warning (line 36): true while the one-time extended
diagnostic of spec section 4.2 has not been emitted yet. -/
structure EngineState where
  running : Bool
  bridgeRegistered : Bool
  handlerInstalled : Bool
  sources : List Nat
  printExtendedWarning : Bool
  warningsEmitted : Nat
deriving DecidableEq, Repr

/-- The engine state before start: nothing armed, warning still pending. -/
def initialState : EngineState :=
  { running := false
    bridgeRegistered := false
    handlerInstalled := false
    sources := []
    printExtendedWarning := true
    warningsEmitted := 0 }

/-- Modelled from the spec: PerfEvents::createForThread (declared at
src/src/perfEvents.h line 38; body not in the slice).  Per spec sections 3
and 4.2: creation is idempotent (a thread that already owns a source keeps
exactly that source), an OS-level open failure (modelled by the oracle
openOk returning false for the thread id) returns failure without touching
the slot table, and the extended diagnostic is emitted at most once per
engine run, guarded by printExtendedWarning. -/
def createForThread (openOk : Nat → Bool) (tid : Nat) (st : EngineState) :
    EngineState × Bool :=
  if tid ∈ st.sources then
    (st, true)
  else if openOk tid then
    ({ st with sources := tid :: st.sources }, true)
  else if st.printExtendedWarning then
    ({ st with printExtendedWarning := false,
               warningsEmitted := st.warningsEmitted + 1 }, false)
  else
    (st, false)

/-- Modelled from the spec: PerfEvents::createForAllThreads (declared at
src/src/perfEvents.h line 39; body not in the slice).  Spec section 4.2:
enumerates live threads, calls createForThread for each; partial success is
accepted, so the aggregate result is true when at least one create
succeeded. -/
def createForAllThreads (openOk : Nat → Bool) :
    List Nat → EngineState → EngineState × Bool
  | [], st => (st, false)
  | tid :: tids, st =>
      let r1 := createForThread openOk tid st
      let r2 := createForAllThreads openOk tids r1.1
      (r2.1, r1.2 || r2.2)

/-- Modelled from the spec: PerfEvents::destroyForThread (declared at
src/src/perfEvents.h line 40; body not in the slice).  Spec section 4.2:
releases the slot of the given thread; safe to call for a thread with no
active source (idempotent no-op). -/
def destroyForThread (tid : Nat) (st : EngineState) : EngineState :=
  { st with sources := st.sources.erase tid }

/-- Teardown events observable during stop, used to state the ordering
required by spec section 5: disarming a counter strictly precedes unmapping
its ring buffer, and the signal handler is restored only after every source
is destroyed. -/
inductive TeardownEvent
  | unregisterBridge
  | disarm (tid : Nat)
  | unmapRing (tid : Nat)
  | restoreHandler
deriving DecidableEq, Repr

/-- The trace of per-thread teardown events: for each tracked source, disarm
its counter, then unmap its ring buffer. -/
def destroyEvents : List Nat → List TeardownEvent
  | [] => []
  | tid :: tids =>
      TeardownEvent.disarm tid :: TeardownEvent.unmapRing tid ::
        destroyEvents tids

/-- Modelled from the spec: PerfEvents::destroyForAllThreads (declared at
src/src/perfEvents.h line 41; body not in the slice).  Spec section 4.2:
destroys every currently tracked source; returns the teardown trace. -/
def destroyForAllThreads (st : EngineState) :
    EngineState × List TeardownEvent :=
  ({ st with sources := [] }, destroyEvents st.sources)

/-- Start errors of spec section 7 relevant to the modelled claims. -/
inductive StartError
  | ok
  | unsupportedEvent
  | noThreadsSampled
deriving DecidableEq, Repr

/-- Modelled from the spec: PerfEvents::start (declared at
src/src/perfEvents.h line 51; body not in the slice).  Spec section 4.5:
resolves the EventType (unknown names fail with UnsupportedEvent and create
no SampleSource), installs the signal handler, calls createForAllThreads and
registers the lifecycle bridge; only total per-thread failure surfaces as
NoThreadsSampled. -/
def start (openOk : Nat → Bool) (eventSpec : String) (liveTids : List Nat)
    (st : EngineState) : EngineState × StartError :=
  match resolve eventSpec with
  | none => (st, StartError.unsupportedEvent)
  | some _ =>
      let st1 := { st with handlerInstalled := true }
      let r := createForAllThreads openOk liveTids st1
      if r.2 then
        ({ r.1 with bridgeRegistered := true, running := true },
         StartError.ok)
      else
        (r.1, StartError.noThreadsSampled)

/-- Modelled from the spec: PerfEvents::stop (declared at
src/src/perfEvents.h line 52; body not in the slice).  Spec section 4.5:
unregisters the lifecycle bridge first, then destroyForAllThreads, then
restores the prior signal handler; idempotent and safe after a partially
failed start.  Returns the final state together with the teardown trace. -/
def stop (st : EngineState) : EngineState × List TeardownEvent :=
  let st1 := { st with bridgeRegistered := false }
  let r := destroyForAllThreads st1
  ({ r.1 with handlerInstalled := false, running := false },
   TeardownEvent.unregisterBridge :: (r.2 ++ [TeardownEvent.restoreHandler]))

/-- Result of one signal-handler invocation (spec section 4.3): either a
sample is delivered for the owning thread, or the handler finds no live
source and returns silently (RaceNoOp). -/
inductive HandlerResult
  | delivered (tid : Nat)
  | raceNoOp
deriving DecidableEq, Repr

/-- Modelled from the spec: the ValidateOwnership step of
PerfEvents::signalHandler (declared at src/src/perfEvents.h line 42; body not
in the slice).  Spec sections 4.3 and 7: a handler invocation on a thread
without a live SampleSource is a silent no-op. -/
def signalHandler (tid : Nat) (st : EngineState) : HandlerResult :=
  if tid ∈ st.sources then HandlerResult.delivered tid
  else HandlerResult.raceNoOp

/-- The interrupted execution context passed to getNativeTrace: the program
counter of the sampled thread, addresses modelled as naturals. -/
structure UContext where
  pc : Nat
deriving DecidableEq, Repr

/-- The raw unwound call chain, innermost to outermost: the interrupted
program counter followed by the return addresses supplied by the ring
buffer record (spec sections 3 and 4.4). -/
def rawCallchain (ctx : UContext) (kernelChain : List Nat) : List Nat :=
  ctx.pc :: kernelChain

/-- Modelled from the spec: PerfEvents::getNativeTrace (declared at
src/src/perfEvents.h lines 54 to 55; body not in the slice).  Spec section
4.4: produces the ordered return addresses from innermost to outermost,
truncated to maxDepth; addresses inside the JIT region bounds are still
recorded raw (interpretation deferred to the caller), so the bounds do not
filter the output.  The returned frame count is the length of the list. -/
def getNativeTrace (ctx : UContext) (tid : Nat) (kernelChain : List Nat)
    (maxDepth : Nat) (jitMinAddress jitMaxAddress : Nat) : List Nat :=
  (rawCallchain ctx kernelChain).take maxDepth

/-- An engine instance; name does not depend on it
(src/src/perfEvents.h lines 45 to 47 return a constant). -/
structure EngineInstance where
  st : EngineState
deriving Repr

/-- PerfEvents::name, from the source (src/src/perfEvents.h lines 45 to 47):
returns the constant string. -/
def name (_self : EngineInstance) : String :=
  "perf"

/-- PerfEvents::ThreadStart, from the source (src/src/perfEvents.h lines
59 to 61): the jvmti, jni and thread arguments are ignored; the body is
createForThread(OS::threadId()), where osTid models OS::threadId(), the id
of the thread invoking the callback.  The Bool result of createForThread is
discarded (the callback returns void), so only the state remains. -/
def ThreadStart (openOk : Nat → Bool) (jvmti jni thread : Nat) (osTid : Nat)
    (st : EngineState) : EngineState :=
  (createForThread openOk osTid st).1

/-- PerfEvents::ThreadEnd, from the source (src/src/perfEvents.h lines
63 to 65): the jvmti, jni and thread arguments are ignored; the body is
destroyForThread(OS::threadId()). -/
def ThreadEnd (jvmti jni thread : Nat) (osTid : Nat)
    (st : EngineState) : EngineState :=
  destroyForThread osTid st

/-- A world for the lifecycle state machine between start and stop: the set
of currently live profiled threads, the set of thread ids for which a
per-thread creation failure was reported, and the engine state. -/
structure World where
  liveThreads : List Nat
  failedThreads : List Nat
  st : EngineState

/-- One transition of the thread-lifecycle bridge (spec sections 4.2 and
4.6) between start and stop: a new thread starts and the bridge arms it, a
duplicate start notification arrives for an already-live thread (the race
the idempotent create must tolerate), or a thread ends and the bridge
destroys its source. -/
inductive Step (openOk : Nat → Bool) : World → World → Prop
  | threadStart (w : World) (tid : Nat) (hnew : tid ∉ w.liveThreads) :
      Step openOk w
        { liveThreads := tid :: w.liveThreads
          failedThreads :=
            if (createForThread openOk tid w.st).2 then w.failedThreads
            else tid :: w.failedThreads
          st := (createForThread openOk tid w.st).1 }
  | duplicateStart (w : World) (tid : Nat) (hlive : tid ∈ w.liveThreads) :
      Step openOk w
        { liveThreads := w.liveThreads
          failedThreads :=
            if (createForThread openOk tid w.st).2 then w.failedThreads
            else tid :: w.failedThreads
          st := (createForThread openOk tid w.st).1 }
  | threadEnd (w : World) (tid : Nat) :
      Step openOk w
        { liveThreads := w.liveThreads.erase tid
          failedThreads := w.failedThreads
          st := destroyForThread tid w.st }

/-- The world immediately after start on a given set of live threads: the
threads whose create failed are exactly those that did not receive a
source. -/
def afterStart (openOk : Nat → Bool) (eventSpec : String)
    (tids : List Nat) : World :=
  let st := (start openOk eventSpec tids initialState).1
  { liveThreads := tids
    failedThreads := tids.filter (fun t => decide (t ∉ st.sources))
    st := st }

/-- Worlds reachable from start by bridge transitions (the instants after
start and before stop). -/
def Reachable (openOk : Nat → Bool) (eventSpec : String) (tids : List Nat)
    (w : World) : Prop :=
  Relation.ReflTransGen (Step openOk) (afterStart openOk eventSpec tids) w

/-- The slot-table invariant of spec sections 3 and 8: live threads are
distinct, no thread owns two sources, every source belongs to a live
thread, and every live thread either owns a source or had a failure
reported. -/
def WorldInv (w : World) : Prop :=
  w.liveThreads.Nodup ∧ w.st.sources.Nodup ∧
  (∀ t ∈ w.st.sources, t ∈ w.liveThreads) ∧
  (∀ t ∈ w.liveThreads, t ∈ w.st.sources ∨ t ∈ w.failedThreads)

/-- A sequence of createForThread calls (the bridge activity of one engine
run), keeping only the state. -/
def createMany (openOk : Nat → Bool) (reqs : List Nat)
    (st : EngineState) : EngineState :=
  reqs.foldl (fun s t => (createForThread openOk t s).1) st

/-- The one-time-warning invariant: while the extended warning is still
pending none has been emitted, and never more than one is emitted per
engine run. -/
def WarnInv (st : EngineState) : Prop :=
  (st.printExtendedWarning = true → st.warningsEmitted = 0) ∧
  st.warningsEmitted ≤ 1

lemma createForThread_of_mem (openOk : Nat → Bool) {tid : Nat}
    {st : EngineState} (h : tid ∈ st.sources) :
    createForThread openOk tid st = (st, true) := by
  simp [createForThread, h]

lemma createForThread_sources_cases (openOk : Nat → Bool) (tid : Nat)
    (st : EngineState) :
    (createForThread openOk tid st).1.sources = st.sources ∨
    (createForThread openOk tid st).1.sources = tid :: st.sources := by
  unfold createForThread
  split_ifs <;> simp

lemma createForThread_mem_mono (openOk : Nat → Bool) (tid : Nat)
    (st : EngineState) {x : Nat} (hx : x ∈ st.sources) :
    x ∈ (createForThread openOk tid st).1.sources := by
  rcases createForThread_sources_cases openOk tid st with h | h <;>
    rw [h] <;> simp [hx]

lemma createForThread_sources_subset (openOk : Nat → Bool) (tid : Nat)
    (st : EngineState) {x : Nat}
    (hx : x ∈ (createForThread openOk tid st).1.sources) :
    x = tid ∨ x ∈ st.sources := by
  rcases createForThread_sources_cases openOk tid st with h | h <;>
    rw [h] at hx
  · exact Or.inr hx
  · simpa using hx

lemma createForThread_nodup (openOk : Nat → Bool) (tid : Nat)
    (st : EngineState) (h : st.sources.Nodup) :
    (createForThread openOk tid st).1.sources.Nodup := by
  unfold createForThread
  split_ifs with h1 h2 h3 <;> simp [h, h1]

lemma createForThread_mem_self (openOk : Nat → Bool) (tid : Nat)
    (st : EngineState) (h : (createForThread openOk tid st).2 = true) :
    tid ∈ (createForThread openOk tid st).1.sources := by
  unfold createForThread at h ⊢
  split_ifs at h ⊢ with h1 h2 <;> simp_all

lemma createForThread_false_sources (openOk : Nat → Bool) (tid : Nat)
    (st : EngineState) (h : (createForThread openOk tid st).2 = false) :
    (createForThread openOk tid st).1.sources = st.sources := by
  unfold createForThread at h ⊢
  split_ifs at h ⊢ <;> simp_all

lemma createForThread_running (openOk : Nat → Bool) (tid : Nat)
    (st : EngineState) :
    (createForThread openOk tid st).1.running = st.running := by
  unfold createForThread
  split_ifs <;> rfl

lemma createForThread_bridge (openOk : Nat → Bool) (tid : Nat)
    (st : EngineState) :
    (createForThread openOk tid st).1.bridgeRegistered =
      st.bridgeRegistered := by
  unfold createForThread
  split_ifs <;> rfl

lemma createForThread_handler (openOk : Nat → Bool) (tid : Nat)
    (st : EngineState) :
    (createForThread openOk tid st).1.handlerInstalled =
      st.handlerInstalled := by
  unfold createForThread
  split_ifs <;> rfl

/-- C8: name() always returns the string "perf", for every PerfEvents
instance and every call. -/
theorem name_always_perf : ∀ p : EngineInstance, name p = "perf" :=
  fun _ => rfl

/-- C9: ThreadStart and ThreadEnd ignore their jvmti, jni and thread
arguments entirely and operate on the OS thread id of the invoking thread:
the result is the same for any values of the ignored arguments, the only
source ThreadStart can add is the calling thread id (added whenever the
open succeeds), and ThreadEnd removes exactly the calling thread id. -/
theorem threadCallbacks_use_caller_tid
    (openOk : Nat → Bool) (j1 n1 t1 j2 n2 t2 osTid : Nat)
    (st : EngineState) :
    ThreadStart openOk j1 n1 t1 osTid st =
      ThreadStart openOk j2 n2 t2 osTid st ∧
    ThreadEnd j1 n1 t1 osTid st = ThreadEnd j2 n2 t2 osTid st ∧
    (∀ x ∈ (ThreadStart openOk j1 n1 t1 osTid st).sources,
      x = osTid ∨ x ∈ st.sources) ∧
    (ThreadEnd j1 n1 t1 osTid st).sources = st.sources.erase osTid ∧
    (openOk osTid = true →
      osTid ∈ (ThreadStart openOk j1 n1 t1 osTid st).sources) := by
  refine ⟨rfl, rfl, ?_, rfl, ?_⟩
  · intro x hx
    exact createForThread_sources_subset openOk osTid st hx
  · intro hok
    by_cases hmem : osTid ∈ st.sources
    · exact createForThread_mem_mono openOk osTid st hmem
    · apply createForThread_mem_self
      simp [createForThread, hmem, hok]

theorem threadCallbacks_use_caller_tid_witness :
    (7 : Nat) ∈
      (ThreadStart (fun _ => true) 1 2 3 7 initialState).sources :=
  (threadCallbacks_use_caller_tid (fun _ => true) 1 2 3 4 5 6 7
    initialState).2.2.2.2 rfl

/-- C10: ThreadStart discards the boolean result of createForThread: it
returns only the state component, and when arming the counter for the new
thread fails the callback still returns normally with the slot table and
all lifecycle flags unchanged, the failure being invisible to the
instrumentation layer. -/
theorem threadStart_discards_failure
    (openOk : Nat → Bool) (j n t osTid : Nat) (st : EngineState) :
    ThreadStart openOk j n t osTid st = (createForThread openOk osTid st).1 ∧
    ((createForThread openOk osTid st).2 = false →
      (ThreadStart openOk j n t osTid st).sources = st.sources ∧
      (ThreadStart openOk j n t osTid st).running = st.running ∧
      (ThreadStart openOk j n t osTid st).bridgeRegistered =
        st.bridgeRegistered ∧
      (ThreadStart openOk j n t osTid st).handlerInstalled =
        st.handlerInstalled) := by
  refine ⟨rfl, fun hfail => ?_⟩
  exact ⟨createForThread_false_sources openOk osTid st hfail,
    createForThread_running openOk osTid st,
    createForThread_bridge openOk osTid st,
    createForThread_handler openOk osTid st⟩

lemma createForAllThreads_sources_nodup (openOk : Nat → Bool)
    (ts : List Nat) (st : EngineState) (h : st.sources.Nodup) :
    (createForAllThreads openOk ts st).1.sources.Nodup := by
  induction ts generalizing st with
  | nil => exact h
  | cons t ts ih => exact ih _ (createForThread_nodup openOk t st h)

lemma createForAllThreads_sources_subset (openOk : Nat → Bool)
    (ts : List Nat) (st : EngineState) {x : Nat}
    (hx : x ∈ (createForAllThreads openOk ts st).1.sources) :
    x ∈ ts ∨ x ∈ st.sources := by
  induction ts generalizing st with
  | nil => exact Or.inr hx
  | cons t ts ih =>
      have hx2 : x ∈ (createForAllThreads openOk ts
          (createForThread openOk t st).1).1.sources := hx
      rcases ih _ hx2 with h | h
      · exact Or.inl (List.mem_cons_of_mem t h)
      · rcases createForThread_sources_subset openOk t st h with rfl | h2
        · exact Or.inl (List.mem_cons_self x ts)
        · exact Or.inr h2

lemma start_sources_nodup (openOk : Nat → Bool) (eventSpec : String)
    (tids : List Nat) :
    (start openOk eventSpec tids initialState).1.sources.Nodup := by
  unfold start
  cases resolve eventSpec with
  | none => exact List.nodup_nil
  | some t =>
      dsimp only
      split_ifs with hc
      · exact createForAllThreads_sources_nodup openOk tids _ List.nodup_nil
      · exact createForAllThreads_sources_nodup openOk tids _ List.nodup_nil

lemma start_sources_subset (openOk : Nat → Bool) (eventSpec : String)
    (tids : List Nat) {x : Nat}
    (hx : x ∈ (start openOk eventSpec tids initialState).1.sources) :
    x ∈ tids := by
  unfold start at hx
  cases hres : resolve eventSpec with
  | none => rw [hres] at hx; cases hx
  | some t =>
      rw [hres] at hx
      dsimp only at hx
      split_ifs at hx with hc <;>
        rcases createForAllThreads_sources_subset openOk tids _ hx with
          h | h <;> first | exact h | cases h

lemma worldInv_afterStart (openOk : Nat → Bool) (eventSpec : String)
    {tids : List Nat} (h : tids.Nodup) :
    WorldInv (afterStart openOk eventSpec tids) := by
  refine ⟨h, start_sources_nodup openOk eventSpec tids, ?_, ?_⟩
  · intro t ht
    exact start_sources_subset openOk eventSpec tids ht
  · intro t ht
    by_cases hs : t ∈ (start openOk eventSpec tids initialState).1.sources
    · exact Or.inl hs
    · exact Or.inr (List.mem_filter.mpr ⟨ht, by simp [hs]⟩)

lemma worldInv_step {openOk : Nat → Bool} {w w' : World}
    (hw : WorldInv w) (hs : Step openOk w w') : WorldInv w' := by
  obtain ⟨hLive, hNodup, hSub, hCov⟩ := hw
  cases hs with
  | threadStart tid hnew =>
      refine ⟨List.nodup_cons.mpr ⟨hnew, hLive⟩,
        createForThread_nodup openOk tid w.st hNodup, ?_, ?_⟩
      · intro x hx
        rcases createForThread_sources_subset openOk tid w.st hx with
          rfl | h2
        · exact List.mem_cons_self x w.liveThreads
        · exact List.mem_cons_of_mem _ (hSub x h2)
      · intro x hx
        rcases List.mem_cons.mp hx with rfl | h2
        · cases hok : (createForThread openOk x w.st).2 with
          | true =>
              exact Or.inl (createForThread_mem_self openOk x w.st hok)
          | false =>
              right
              simp only [hok, if_false]
              exact List.mem_cons_self x w.failedThreads
        · rcases hCov x h2 with h3 | h3
          · exact Or.inl (createForThread_mem_mono openOk tid w.st h3)
          · right
            split
            · exact h3
            · exact List.mem_cons_of_mem _ h3
  | duplicateStart tid hlive =>
      refine ⟨hLive, createForThread_nodup openOk tid w.st hNodup, ?_, ?_⟩
      · intro x hx
        rcases createForThread_sources_subset openOk tid w.st hx with
          rfl | h2
        · exact hlive
        · exact hSub x h2
      · intro x hx
        rcases hCov x hx with h3 | h3
        · exact Or.inl (createForThread_mem_mono openOk tid w.st h3)
        · right
          split
          · exact h3
          · exact List.mem_cons_of_mem _ h3
  | threadEnd tid =>
      refine ⟨hLive.erase tid, hNodup.erase tid, ?_, ?_⟩
      · intro x hx
        have h1 := (hNodup.mem_erase_iff).mp hx
        exact (List.mem_erase_of_ne h1.1).mpr (hSub x h1.2)
      · intro x hx
        have h1 := (hLive.mem_erase_iff).mp hx
        rcases hCov x h1.2 with h3 | h3
        · exact Or.inl ((List.mem_erase_of_ne h1.1).mpr h3)
        · exact Or.inr h3

lemma worldInv_reachable {openOk : Nat → Bool} {eventSpec : String}
    {tids : List Nat} {w : World} (h : tids.Nodup)
    (hr : Reachable openOk eventSpec tids w) : WorldInv w := by
  induction hr with
  | refl => exact worldInv_afterStart openOk eventSpec h
  | tail hr hstep ih => exact worldInv_step ih hstep

/-- C1: in every world reachable between start and stop, the number of
live SampleSources never exceeds the number of currently live threads,
every live thread without a reported per-thread creation failure owns
exactly one SampleSource, and createForThread is idempotent: a second
create for a thread id that already owns a source returns success and
leaves the slot table unchanged, producing no duplicate. -/
theorem sampleSource_per_thread_invariant (openOk : Nat → Bool)
    (eventSpec : String) (tids : List Nat) (w : World)
    (hN : tids.Nodup) (hr : Reachable openOk eventSpec tids w) :
    w.st.sources.length ≤ w.liveThreads.length ∧
    (∀ t ∈ w.liveThreads, t ∉ w.failedThreads →
      w.st.sources.count t = 1) ∧
    (∀ (st : EngineState) (t : Nat), t ∈ st.sources →
      createForThread openOk t st = (st, true)) := by
  obtain ⟨hLive, hNodup, hSub, hCov⟩ := worldInv_reachable hN hr
  refine ⟨?_, ?_, ?_⟩
  · exact (hNodup.subperm (fun x hx => hSub x hx)).length_le
  · intro t ht hnf
    rcases hCov t ht with h | h
    · exact List.count_eq_one_of_mem hNodup h
    · exact absurd h hnf
  · intro st t h
    exact createForThread_of_mem openOk h

theorem sampleSource_per_thread_invariant_witness :
    ([1, 2] : List Nat).Nodup ∧
    (afterStart (fun _ => true) "cpu-cycles" [1, 2]).st.sources.length ≤
      (afterStart (fun _ => true) "cpu-cycles" [1, 2]).liveThreads.length :=
  ⟨by decide,
   (sampleSource_per_thread_invariant (fun _ => true) "cpu-cycles" [1, 2]
     (afterStart (fun _ => true) "cpu-cycles" [1, 2]) (by decide)
     Relation.ReflTransGen.refl).1⟩

lemma warnInv_createForThread (openOk : Nat → Bool) (t : Nat)
    {st : EngineState} (h : WarnInv st) :
    WarnInv (createForThread openOk t st).1 := by
  obtain ⟨h1, h2⟩ := h
  unfold createForThread
  split_ifs with ha hb hc
  · exact ⟨h1, h2⟩
  · exact ⟨h1, h2⟩
  · refine ⟨fun hp => ?_, ?_⟩
    · simp at hp
    · have h0 := h1 hc
      simp only []
      omega
  · exact ⟨h1, h2⟩

lemma warnInv_createMany (openOk : Nat → Bool) (reqs : List Nat)
    {st : EngineState} (h : WarnInv st) :
    WarnInv (createMany openOk reqs st) := by
  induction reqs generalizing st with
  | nil => exact h
  | cons t ts ih => exact ih (warnInv_createForThread openOk t h)

lemma warnInv_createForAllThreads (openOk : Nat → Bool) (ts : List Nat)
    {st : EngineState} (h : WarnInv st) :
    WarnInv (createForAllThreads openOk ts st).1 := by
  induction ts generalizing st with
  | nil => exact h
  | cons t ts ih => exact ih (warnInv_createForThread openOk t h)

lemma warnInv_initialState : WarnInv initialState :=
  ⟨fun _ => rfl, Nat.zero_le 1⟩

lemma warnInv_start (openOk : Nat → Bool) (eventSpec : String)
    (tids : List Nat) :
    WarnInv (start openOk eventSpec tids initialState).1 := by
  unfold start
  cases resolve eventSpec with
  | none => exact warnInv_initialState
  | some t =>
      dsimp only
      split_ifs with hc
      · exact warnInv_createForAllThreads openOk tids warnInv_initialState
      · exact warnInv_createForAllThreads openOk tids warnInv_initialState

/-- C7: per-thread counter-open failure is non-fatal (createForThread
returns failure with the slot table and the running flag untouched), and
the extended diagnostic is printed at most once per engine run: across the
creates performed by start plus any sequence of bridge creates, the number
of warnings emitted never exceeds one, and a warning is emitted only when
the printExtendedWarning guard was set, clearing it. -/
theorem extended_warning_once_nonfatal (openOk : Nat → Bool)
    (eventSpec : String) (tids reqs : List Nat) :
    (createMany openOk reqs
      (start openOk eventSpec tids initialState).1).warningsEmitted ≤ 1 ∧
    (∀ (t : Nat) (st : EngineState),
      (createForThread openOk t st).2 = false →
      (createForThread openOk t st).1.sources = st.sources ∧
      (createForThread openOk t st).1.running = st.running) ∧
    (∀ (t : Nat) (st : EngineState),
      (createForThread openOk t st).1.warningsEmitted ≠
        st.warningsEmitted →
      st.printExtendedWarning = true ∧
      (createForThread openOk t st).1.printExtendedWarning = false) := by
  refine ⟨(warnInv_createMany openOk reqs
    (warnInv_start openOk eventSpec tids)).2, ?_, ?_⟩
  · intro t st h
    exact ⟨createForThread_false_sources openOk t st h,
      createForThread_running openOk t st⟩
  · intro t st h
    unfold createForThread at h ⊢
    split_ifs at h ⊢ with h1 h2 h3
    · exact absurd rfl h
    · exact absurd rfl h
    · exact ⟨h3, rfl⟩
    · exact absurd rfl h

theorem extended_warning_once_nonfatal_witness :
    (createMany (fun _ => false) [1, 2, 3]
      (start (fun _ => false) "cpu-cycles" [4, 5]
        initialState).1).warningsEmitted ≤ 1 ∧
    ((createForThread (fun _ => false) 9 initialState).1.sources =
        initialState.sources ∧
      (createForThread (fun _ => false) 9 initialState).1.running =
        initialState.running) :=
  ⟨(extended_warning_once_nonfatal (fun _ => false) "cpu-cycles"
      [4, 5] [1, 2, 3]).1,
   (extended_warning_once_nonfatal (fun _ => false) "cpu-cycles"
      [4, 5] [1, 2, 3]).2.1 9 initialState (by decide)⟩

lemma stop_trace_eq (st : EngineState) :
    (stop st).2 = TeardownEvent.unregisterBridge ::
      (destroyEvents st.sources ++ [TeardownEvent.restoreHandler]) := rfl

lemma stop_trace_length (st : EngineState) :
    (stop st).2.length = (destroyEvents st.sources).length + 2 := by
  rw [stop_trace_eq]
  simp

lemma destroyEvents_ne_restore (ts : List Nat) :
    ∀ e ∈ destroyEvents ts, e ≠ TeardownEvent.restoreHandler := by
  induction ts with
  | nil => simp [destroyEvents]
  | cons t ts ih =>
      intro e he
      simp only [destroyEvents, List.mem_cons] at he
      rcases he with rfl | rfl | he
      · simp
      · simp
      · exact ih e he

lemma destroyEvents_pair {t : Nat} {ts : List Nat} (h : t ∈ ts) :
    ∃ i j, i < j ∧ j < (destroyEvents ts).length ∧
      (destroyEvents ts)[i]? = some (TeardownEvent.disarm t) ∧
      (destroyEvents ts)[j]? = some (TeardownEvent.unmapRing t) := by
  induction ts with
  | nil => cases h
  | cons a ts ih =>
      rcases List.mem_cons.mp h with rfl | h2
      · refine ⟨0, 1, Nat.zero_lt_one, ?_, ?_, ?_⟩
        · simp only [destroyEvents, List.length_cons]
          omega
        · simp [destroyEvents]
        · simp [destroyEvents]
      · obtain ⟨i, j, hij, hjlen, hdi, huj⟩ := ih h2
        refine ⟨i + 2, j + 2, by omega, ?_, ?_, ?_⟩
        · simp only [destroyEvents, List.length_cons]
          omega
        · simpa only [destroyEvents, List.getElem?_cons_succ] using hdi
        · simpa only [destroyEvents, List.getElem?_cons_succ] using huj

/-- C2: the teardown trace of stop unregisters the lifecycle bridge first,
disarms the counter of every tracked thread strictly before unmapping that
same thread's ring buffer, restores the prior signal handler only at the
very last position (after every source is destroyed), and afterwards no
source remains, so any signal delivery is a silent race no-op instead of
touching freed resources. -/
theorem stop_teardown_order (st : EngineState) :
    (stop st).2[0]? = some TeardownEvent.unregisterBridge ∧
    (stop st).2[(stop st).2.length - 1]? =
      some TeardownEvent.restoreHandler ∧
    (∀ k, (stop st).2[k]? = some TeardownEvent.restoreHandler →
      k = (stop st).2.length - 1) ∧
    (∀ tid ∈ st.sources, ∃ i j, 0 < i ∧ i < j ∧
      j < (stop st).2.length - 1 ∧
      (stop st).2[i]? = some (TeardownEvent.disarm tid) ∧
      (stop st).2[j]? = some (TeardownEvent.unmapRing tid)) ∧
    (stop st).1.sources = [] ∧
    (∀ tid, signalHandler tid (stop st).1 = HandlerResult.raceNoOp) := by
  have hlen := stop_trace_length st
  refine ⟨?_, ?_, ?_, ?_, rfl, ?_⟩
  · rw [stop_trace_eq]
    simp
  · rw [hlen, stop_trace_eq]
    have h1 : (destroyEvents st.sources).length + 2 - 1 =
        (destroyEvents st.sources).length + 1 := by omega
    rw [h1, List.getElem?_cons_succ]
    exact List.getElem?_concat_length _ _
  · intro k hk
    rw [stop_trace_eq] at hk
    rcases k with _ | k
    · simp at hk
    · rw [List.getElem?_cons_succ] at hk
      by_cases hkd : k < (destroyEvents st.sources).length
      · rw [List.getElem?_append_left hkd] at hk
        exact absurd rfl
          (destroyEvents_ne_restore st.sources _ (List.getElem?_mem hk))
      · rcases Nat.eq_or_lt_of_le (Nat.le_of_not_lt hkd) with heq | hlt
        · omega
        · have hout : (destroyEvents st.sources ++
              [TeardownEvent.restoreHandler]).length ≤ k := by
            simp only [List.length_append, List.length_cons,
              List.length_nil]
            omega
          rw [List.getElem?_eq_none hout] at hk
          cases hk
  · intro tid htid
    obtain ⟨i, j, hij, hjlen, hdi, huj⟩ := destroyEvents_pair htid
    refine ⟨i + 1, j + 1, Nat.succ_pos i, by omega, by omega, ?_, ?_⟩
    · rw [stop_trace_eq, List.getElem?_cons_succ,
        List.getElem?_append_left (by omega)]
      exact hdi
    · rw [stop_trace_eq, List.getElem?_cons_succ,
        List.getElem?_append_left hjlen]
      exact huj
  · intro tid
    have hsrc : (stop st).1.sources = [] := rfl
    simp [signalHandler, hsrc]

theorem stop_teardown_order_witness :
    (3 : Nat) ∈ ({ initialState with sources := [3, 8] } :
      EngineState).sources ∧
    ∃ i j, 0 < i ∧ i < j ∧
      j < (stop { initialState with sources := [3, 8] }).2.length - 1 ∧
      (stop { initialState with sources := [3, 8] }).2[i]? =
        some (TeardownEvent.disarm 3) ∧
      (stop { initialState with sources := [3, 8] }).2[j]? =
        some (TeardownEvent.unmapRing 3) :=
  ⟨by decide,
   (stop_teardown_order { initialState with sources := [3, 8] }).2.2.2.1 3
     (by decide)⟩

/-- C4: for every context, thread id, JIT window and maxDepth K, the call
chain written by getNativeTrace has at most K entries, and every entry
agrees position by position with the raw unwound return addresses, so the
innermost-to-outermost order is preserved. -/
theorem getNativeTrace_bounded_ordered (ctx : UContext) (tid : Nat)
    (chain : List Nat) (K lo hi : Nat) :
    (getNativeTrace ctx tid chain K lo hi).length ≤ K ∧
    ∀ i, i < (getNativeTrace ctx tid chain K lo hi).length →
      (getNativeTrace ctx tid chain K lo hi)[i]? =
        (rawCallchain ctx chain)[i]? := by
  constructor
  · exact List.length_take_le K (rawCallchain ctx chain)
  · intro i hi2
    have hiK : i < K := lt_of_lt_of_le hi2 (List.length_take_le _ _)
    simp [getNativeTrace, List.getElem?_take, hiK]

theorem getNativeTrace_bounded_ordered_witness :
    (getNativeTrace ⟨100⟩ 1 [200, 300] 2 0 0).length ≤ 2 ∧
    (getNativeTrace ⟨100⟩ 1 [200, 300] 2 0 0)[0]? =
      (rawCallchain ⟨100⟩ [200, 300])[0]? :=
  ⟨(getNativeTrace_bounded_ordered ⟨100⟩ 1 [200, 300] 2 0 0).1,
   (getNativeTrace_bounded_ordered ⟨100⟩ 1 [200, 300] 2 0 0).2 0
     (by decide)⟩

/-- C5: when the interrupted program counter lies inside the JIT region
bounds and at least one frame is requested, extraction still succeeds with
a non-zero frame count and frame 0 of the output equals that program
counter exactly. -/
theorem getNativeTrace_jit_pc_frame0 (ctx : UContext) (tid : Nat)
    (chain : List Nat) (K lo hi : Nat)
    (hlo : lo ≤ ctx.pc) (hhi : ctx.pc < hi) (hK : 0 < K) :
    0 < (getNativeTrace ctx tid chain K lo hi).length ∧
    (getNativeTrace ctx tid chain K lo hi)[0]? = some ctx.pc := by
  obtain ⟨K, rfl⟩ := Nat.exists_eq_succ_of_ne_zero (Nat.pos_iff_ne_zero.mp hK)
  simp [getNativeTrace, rawCallchain]

theorem getNativeTrace_jit_pc_frame0_witness :
    (0 : Nat) ≤ 50 ∧ (50 : Nat) < 90 ∧ (0 : Nat) < 3 ∧
    (0 < (getNativeTrace ⟨50⟩ 1 [200, 300] 3 0 90).length ∧
     (getNativeTrace ⟨50⟩ 1 [200, 300] 3 0 90)[0]? = some 50) :=
  ⟨by decide, by decide, by decide,
   getNativeTrace_jit_pc_frame0 ⟨50⟩ 1 [200, 300] 3 0 90 (by decide)
     (by decide) (by decide)⟩

/-- C6: resolve is total and deterministic on the supported event table
(every listed name maps to its fixed EventType), and for every name
outside the table (such as "not-a-real-event") resolve fails, start fails
with UnsupportedEvent leaving the slot table empty (no SampleSource
created), and stop is safely callable afterward as a no-op releasing
nothing. -/
theorem resolve_total_unknown_unsupported :
    (∀ e ∈ supportedEvents, resolve e.eventName = some e) ∧
    ∀ s : String, (∀ e ∈ supportedEvents, e.eventName ≠ s) →
      resolve s = none ∧
      ∀ (openOk : Nat → Bool) (tids : List Nat),
        (start openOk s tids initialState).2 =
          StartError.unsupportedEvent ∧
        (start openOk s tids initialState).1.sources = [] ∧
        (stop (start openOk s tids initialState).1).2 =
          [TeardownEvent.unregisterBridge, TeardownEvent.restoreHandler] ∧
        (stop (start openOk s tids initialState).1).1.sources = [] := by
  refine ⟨by decide, fun s hs => ?_⟩
  have hres : resolve s = none := by
    apply List.find?_eq_none.mpr
    intro e he
    simp [hs e he]
  refine ⟨hres, fun openOk tids => ?_⟩
  have hstart : start openOk s tids initialState =
      (initialState, StartError.unsupportedEvent) := by
    simp [start, hres]
  rw [hstart]
  exact ⟨rfl, rfl, rfl, rfl⟩

theorem resolve_total_unknown_unsupported_witness :
    resolve "cpu-cycles" =
      some ⟨EventCategory.hardware, 0, 0, "cpu-cycles"⟩ ∧
    resolve "not-a-real-event" = none ∧
    (start (fun _ => true) "not-a-real-event" [1, 2] initialState).2 =
      StartError.unsupportedEvent :=
  ⟨resolve_total_unknown_unsupported.1
     ⟨EventCategory.hardware, 0, 0, "cpu-cycles"⟩ (by decide),
   (resolve_total_unknown_unsupported.2 "not-a-real-event" (by decide)).1,
   ((resolve_total_unknown_unsupported.2 "not-a-real-event"
      (by decide)).2 (fun _ => true) [1, 2]).1⟩

/-- C3: stop is idempotent (a second stop reaches the same state and its
teardown trace disarms and unmaps nothing, so no resource is released
twice), and destroyForThread on a thread id with no active SampleSource is
a no-op that leaves the slot table unchanged. -/
theorem stop_idempotent_destroy_noop (st : EngineState) (tid : Nat) :
    (stop (stop st).1).1 = (stop st).1 ∧
    (stop (stop st).1).2 =
      [TeardownEvent.unregisterBridge, TeardownEvent.restoreHandler] ∧
    (tid ∉ st.sources → destroyForThread tid st = st) := by
  refine ⟨rfl, rfl, fun h => ?_⟩
  simp [destroyForThread, List.erase_of_not_mem h]

theorem stop_idempotent_destroy_noop_witness :
    (5 : Nat) ∉ initialState.sources ∧
    destroyForThread 5 initialState = initialState :=
  ⟨by decide,
   (stop_idempotent_destroy_noop initialState 5).2.2 (by decide)⟩

theorem threadStart_discards_failure_witness :
    (ThreadStart (fun _ => false) 1 2 3 7 initialState).sources =
      initialState.sources ∧
    (ThreadStart (fun _ => false) 1 2 3 7 initialState).running =
      initialState.running ∧
    (ThreadStart (fun _ => false) 1 2 3 7 initialState).bridgeRegistered =
      initialState.bridgeRegistered ∧
    (ThreadStart (fun _ => false) 1 2 3 7 initialState).handlerInstalled =
      initialState.handlerInstalled :=
  (threadStart_discards_failure (fun _ => false) 1 2 3 7 initialState).2
    (by decide)

end PerfSpec
